import Mathlib

/-!
Shallow embedding of the event-manager orchestration core
(src/event_manager/event_manager.py, src/event_manager/file_watch.py,
src/eventmanager/cron.py) together with theorems settling the frozen
claims about its specification.

Python dictionaries whose values are strings are embedded as association
lists with last-binding-wins lookup, matching the semantics of building a
dict by successive insertion.  The external regular-expression engine is
embedded as an oracle: a trigger carries a function from paths to optional
match results (named capture groups as a key/value list, positional
capture groups as a list).  Machine-level concerns (inotify, wall-clock
sleeping, actual process execution) stay outside; the worker body is
embedded as a pure function of the externally determined run result
(normal completion with an exit code, or timeout).
-/

namespace EventManager

/-- Python dict of strings, as an insertion-ordered association list.
Lookup takes the LAST binding of a key, which coincides with the value a
Python dict holds after the same sequence of insertions. -/
abbrev Mapping := List (String × String)

/-- Value a Python dict built by the listed insertions holds at key `k`:
the last binding wins. -/
def lookup (m : Mapping) (k : String) : Option String :=
  m.foldl (fun acc kv => if kv.1 = k then some kv.2 else acc) none

/-- Word characters of the template id pattern.  `GroupTemplate` sets
`idpattern` to a regex word-character class, so identifiers are maximal
runs of alphanumerics and underscores. -/
def isWordChar (c : Char) : Bool := c.isAlphanum || c = '_'

/-- Splits a character list into its maximal word-character prefix and the
rest. -/
def takeWord : List Char → List Char × List Char
  | [] => ([], [])
  | c :: cs =>
    if isWordChar c then
      let p := takeWord cs
      (c :: p.1, p.2)
    else ([], c :: cs)

theorem takeWord_snd_length : ∀ l : List Char, (takeWord l).2.length ≤ l.length := by
  intro l
  induction l with
  | nil => simp [takeWord]
  | cons c cs ih =>
    simp only [takeWord]
    split
    · simpa using Nat.le_succ_of_le ih
    · simp

/-- Character-level scanner for `string.Template.safe_substitute` with
`GroupTemplate.idpattern` (a plain word pattern, so positional ids such as
1, 2, ... are recognised).  A dollar sign introduces: an escaped dollar,
a named id, a braced id, or (failing those) an invalid match that is kept
verbatim.  Ids present in the mapping are replaced by their value; absent
ids are kept verbatim, never an error. -/
def substAux (m : Mapping) : List Char → List Char
  | [] => []
  | '$' :: rest =>
    match hr : rest with
    | '$' :: rest1 => '$' :: substAux m rest1
    | '{' :: rest1 =>
      match hw : takeWord rest1 with
      | ([], _) => '$' :: substAux m rest
      | (w, rest2) =>
        match hc : rest2 with
        | '}' :: rest3 =>
          match lookup m (String.mk w) with
          | some v => v.data ++ substAux m rest3
          | none => '$' :: '{' :: (w ++ '}' :: substAux m rest3)
        | _ => '$' :: substAux m rest
    | c :: rest1 =>
      if isWordChar c then
        match hw : takeWord rest with
        | (w, rest2) =>
          match lookup m (String.mk w) with
          | some v => v.data ++ substAux m rest2
          | none => '$' :: (w ++ substAux m rest2)
      else '$' :: substAux m rest
    | [] => ['$']
  | c :: rest => c :: substAux m rest
termination_by l => l.length
decreasing_by
  all_goals simp_wf
  all_goals try omega
  all_goals first
    | (subst hr; simp only [List.length_cons]; omega)
    | (have h1 := takeWord_snd_length rest1; rw [hw] at h1; simp at h1; omega)
    | (have h1 := takeWord_snd_length rest; rw [hw] at h1; simp at h1;
       subst hr; simp only [List.length_cons] at h1; omega)

/-- Embedding of `GroupTemplate(template).safe_substitute(**mapping)`. -/
def safeSubstitute (template : String) (m : Mapping) : String :=
  String.mk (substAux m template.data)

/-- Truthiness of an optional Python string: `None` and the empty string
are falsy. -/
def truthyOpt : Option String → Option String
  | none => none
  | some s => if s = "" then none else some s

/-- Embedding of the `EventItem` dataclass.  `template` is the source
string of the compiled `GroupTemplate` stored in `process`; `sub` is the
resolved command string maintained by `__post_init__`. -/
structure EventItem where
  template : String
  timeout : Option Nat
  success : Option String
  fail : Option String
  mapping : Option Mapping
  sub : String
  deriving Repr, DecidableEq

/-- Construction of an `EventItem` from a config entry: `process` is a
string, so `__post_init__` stores it as the template and as the initial
`sub`; `mapping` is `None`, so no substitution happens. -/
def mkEventItem (process : String) (timeout : Option Nat)
    (success fail : Option String) : EventItem :=
  { template := process, timeout := timeout, success := success,
    fail := fail, mapping := none, sub := process }

/-- Embedding of `dataclasses.replace(eventItem, mapping=mapping)`: all
fields are copied, `mapping` is overridden, and `__post_init__` runs again.
The stored process is already a compiled template (not a string), so only
the mapping branch fires: a truthy (non-empty) mapping recomputes `sub` by
safe substitution; a falsy one leaves the copied `sub` unchanged. -/
def replaceMappingOpt (e : EventItem) (m : Option Mapping) : EventItem :=
  { e with
    mapping := m,
    sub :=
      match m with
      | some l => if l.isEmpty then e.sub else safeSubstitute e.template l
      | none => e.sub }

/-- Result of `trigger.pattern.match(str(pathname))` when it is not
`None`: the named capture groups (`match.groupdict()`, whose keys are
distinct) and the positional capture groups (`match.groups()`).  The
regular-expression engine `re` is external; a trigger carries this result
as an oracle function of the path. -/
structure MatchResult where
  named : List (String × String)
  groups : List String
  deriving Repr, DecidableEq

/-- Embedding of the dict comprehension over the positional groups,
keyed by the decimal string of the 1-based index: the pairs inserted by
enumerating values from index `start`. -/
def posPairs (start : Nat) : List String → Mapping
  | [] => []
  | v :: vs => (toString start, v) :: posPairs (start + 1) vs

/-- Substitution mapping built for a matched file record:
groupdict entries, then positional entries keyed by their 1-based decimal
index, then the matched path under key file; later insertions overwrite
earlier ones, as in the Python dict literal. -/
def buildMapping (m : MatchResult) (path : String) : Mapping :=
  m.named ++ posPairs 1 m.groups ++ [("file", path)]

/-- Embedding of `TriggerItem`: the event name it fires plus the compiled
pattern, carried as an oracle from paths to optional match results, and
the optional backup template (already resolved against the watch root). -/
structure TriggerItem where
  event : String
  matchPat : String → Option MatchResult
  backup : Option String

/-- Instances enqueued by `read_file_event` for one file-kind change
record at `path`: every trigger is tried in registration order, and every
match enqueues `dataclasses.replace(self.events[trigger.event],
mapping=mapping)`.  Load guarantees each trigger's event name is a key of
the events dict, so the lookup is embedded as a total function. -/
def fileEventInstances (triggers : List TriggerItem)
    (events : String → EventItem) (path : String) : List EventItem :=
  triggers.filterMap fun t =>
    (t.matchPat path).map fun m =>
      replaceMappingOpt (events t.event) (some (buildMapping m path))

/-- Filesystem side effects of `read_file_event` on one file-kind record. -/
inductive FsEffect where
  | backupCopy (src dst : String)
  | deleteFile (p : String)
  deriving Repr, DecidableEq

/-- Filesystem effects performed by `read_file_event` for one file-kind
record: for every matching trigger with a backup template, a copy to the
substituted backup path; then, if the delete flag is set and the path is
still a file (`isFile` is the oracle for that check), the path is
unlinked — this final check does not depend on whether any trigger
matched. -/
def fileEventEffects (triggers : List TriggerItem) (deleteFlag : Bool)
    (isFile : String → Bool) (path : String) : List FsEffect :=
  (triggers.filterMap fun t =>
    (t.matchPat path).bind fun m =>
      t.backup.map fun b =>
        FsEffect.backupCopy path (safeSubstitute b (buildMapping m path))) ++
  (if deleteFlag && isFile path then [FsEffect.deleteFile path] else [])

/-- Externally determined fate of one launched process inside the worker:
`asyncio.wait_for` either returns normally with a return code or raises
the timeout. -/
inductive RunResult where
  | completed (rc : Int)
  | timedOut
  deriving Repr, DecidableEq

/-- Observable result of one iteration of `EventManager.worker`.
`killed` lists the process ids killed, in order; `stats` is the outcome
string; `enqueued` is the chained instance put on the queue, if any;
`nv` is the state of the loop-local variable next_event after the
iteration (`none` means still unbound); `logMsg` is the logged triple of
resolved command, pid and the chained next-event name shown, when the
iteration reached the logging call without raising; `raised` is the
exception that escapes the worker, if any. -/
structure IterOut where
  killed : List Nat
  stats : String
  enqueued : Option EventItem
  nv : Option (Option String)
  logMsg : Option (String × Nat × Option String)
  raised : Option String
  deriving Repr, DecidableEq

/-- One iteration of the worker loop body after the dequeue, embedded as
a pure function of the run result.  `events` is the events dict
(`none` = missing key).  `prevNV` is the binding of the loop-local
next_event from previous iterations: on the timeout path the variable is
never assigned, so the logging call reads the stale binding, or raises
UnboundLocalError when no previous iteration bound it.  On normal
completion the outcome selects the field, a truthy value is looked up
in the events dict (a missing key raises KeyError before anything is
enqueued or logged), and the chained instance carries the mapping of the
finished instance. -/
def workerIter (events : String → Option EventItem)
    (prevNV : Option (Option String)) (e : EventItem) (pid : Nat)
    (descendants : List Nat) (r : RunResult) : IterOut :=
  match r with
  | .timedOut =>
    let killed := descendants ++ [pid]
    match prevNV with
    | none =>
      { killed := killed, stats := "Timeout", enqueued := none,
        nv := none, logMsg := none,
        raised := some "UnboundLocalError: next_event" }
    | some v =>
      { killed := killed, stats := "Timeout", enqueued := none,
        nv := some v, logMsg := some (e.sub, pid, truthyOpt v),
        raised := none }
  | .completed rc =>
    let failed := decide (rc ≠ 0)
    let stats := if failed then "fail" else "success"
    let nvVal : Option String := if failed then e.fail else e.success
    match truthyOpt nvVal with
    | none =>
      { killed := [], stats := stats, enqueued := none, nv := some nvVal,
        logMsg := some (e.sub, pid, none), raised := none }
    | some b =>
      match events b with
      | none =>
        { killed := [], stats := stats, enqueued := none, nv := some nvVal,
          logMsg := none, raised := some ("KeyError: " ++ b) }
      | some nxt =>
        { killed := [], stats := stats,
          enqueued := some (replaceMappingOpt nxt e.mapping),
          nv := some nvVal, logMsg := some (e.sub, pid, some b),
          raised := none }

/-- Chain of worker iterations: starting from one queued instance, feed
each run result in turn to the instance enqueued by the previous
iteration; `none` when some step enqueued nothing. -/
def runChain (events : String → Option EventItem) (e : EventItem) :
    List RunResult → Option EventItem
  | [] => some e
  | r :: rs =>
    match (workerIter events (some none) e 0 [] r).enqueued with
    | some nxt => runChain events nxt rs
    | none => none

/-- One entry of the YAML Events mapping, as `load_config` reads it:
presence of the Process key, the process string, and the optional
Timeout, Success, Fail, File, Backup and Cron values. -/
structure RawEvent where
  hasProcess : Bool
  process : String := ""
  timeout : Option Nat := none
  success : Option String := none
  fail : Option String := none
  file : Option String := none
  backup : Option String := none
  cron : Option String := none
  deriving Repr, DecidableEq

/-- The fields of the running GeneralConfig that `load_config` consumes,
plus the parent directory of the config file (used for the refresh
watch). -/
structure LoadFlags where
  watch : String
  confParent : String
  recursive : Bool
  refresh : Bool
  deriving Repr, DecidableEq

/-- Joining the watch root with a trigger path template: embeds
`(watch / resolve_path_all(self.file, False)).resolve()`.  Environment
expansion and symlink resolution are external OS behaviour and are
embedded as the plain join. -/
def resolveUnder (watch p : String) : String := watch ++ "/" ++ p

/-- Parent directory of a path string, as `pathlib.PurePath.parent`
computes it for the resolved absolute paths at hand: everything before
the last slash. -/
def parentOf (p : String) : String :=
  String.mk ((((p.data).reverse.dropWhile fun c => c ≠ '/').drop 1).reverse)

/-- A trigger as `load_config` records it: event name and resolved file
pattern source string, plus the optional backup template. -/
structure LoadTrigger where
  event : String
  file : String
  backup : Option String
  deriving Repr, DecidableEq

/-- A key of the crontab's sorted dict, as a Python value: either a
datetime (what the specification expects) or the generator object that
`crule.get_next_time()` — a generator function — actually returns when
called.  Datetimes are represented by their timestamp. -/
inductive CronKey where
  | dt (t : Nat)
  | genObj (id : Nat)
  deriving Repr, DecidableEq

/-- Embedding of the crontab state: the sorted-dict contents (each value
lists the (rule, name) pairs stored under the key; a rule is represented
by its frequency spec) and a supply of generator-object identities. -/
structure Crontab where
  rules : List (CronKey × List (String × String)) := []
  nextId : Nat := 0
  deriving Repr, DecidableEq

/-- Embedding of `crontab.add_rule`: builds the rule and evaluates
`self.rules[rule.get_next_time()]`.  `get_next_time` is a generator
function, so the key inserted is a fresh generator object, not a
datetime.  Inserting into the empty sorted dict needs no key comparison
and succeeds; inserting a second key requires ordering two generator
objects, which raises TypeError before the dict is touched. -/
def addRule (ct : Crontab) (freq name : String) : Except String Crontab :=
  let key := CronKey.genObj ct.nextId
  if ct.rules.isEmpty then
    .ok { rules := [(key, [(freq, name)])], nextId := ct.nextId + 1 }
  else
    .error "TypeError: generator objects are unorderable"

/-- Embedding of one iteration of `crontab.generate` up to its first
suspension: with pending rules it pops the entry at index 0 and evaluates
`asyncio.sleep(at - datetime.datetime.now())`.  When the popped key is a
generator object, the subtraction raises TypeError; were it a datetime,
the subtraction would produce a timedelta, which `asyncio.sleep` rejects
with TypeError as well.  With no pending rules it sleeps 60 seconds. -/
def generateStep (ct : Crontab) : Except String (Nat × Crontab) :=
  match ct.rules with
  | [] => .ok (60, ct)
  | (key, _) :: _ =>
    match key with
    | .genObj _ =>
      .error "TypeError: unsupported operand types for subtraction: generator and datetime"
    | .dt _ =>
      .error "TypeError: asyncio.sleep expects a number, not timedelta"

/-- State assembled by `load_config`: the trigger list, the events dict
(insertion-ordered), the crontab the cron rules are registered with, and
the file watcher's watch-directory set. -/
structure LoadedState where
  triggers : List LoadTrigger := []
  events : List (String × EventItem) := []
  cron : Crontab := {}
  watchDirs : List String := []
  deriving Repr, DecidableEq

/-- `FileWatcher.add_watch`: the watch-directory set is a set, so adding
an already-watched directory changes nothing. -/
def addWatch (ws : List String) (d : String) : List String :=
  if d ∈ ws then ws else ws ++ [d]

/-- The directory the processing of one Events entry adds to the watcher,
if any: entries with a Process and a File key add the parent of the
resolved file pattern when recursive mode is off and that parent is a
directory (`isDir` is the filesystem oracle). -/
def itemWatchDir (g : LoadFlags) (isDir : String → Bool)
    (item : RawEvent) : Option String :=
  if item.hasProcess then
    match item.file with
    | some f =>
      let d := parentOf (resolveUnder g.watch f)
      if ¬g.recursive ∧ isDir d then some d else none
    | none => none
  else none

/-- Processing of one named Events entry, updating the loaded state in
source order: entries without Process are skipped; an entry with Process
is recorded in the events dict; a File key additionally records a trigger
and possibly a watch (see `itemWatchDir`); otherwise a Cron key calls
`crontab.add_rule`, which raises TypeError when the crontab already
holds a rule (unorderable generator keys).  The second component carries
the exception the entry raised, if any; the first is the engine state at
that point — the events dict was already updated, the crontab was not
(the sorted container rejects the key before the dict insert). -/
def loadItem (g : LoadFlags) (isDir : String → Bool) (st : LoadedState)
    (ni : String × RawEvent) : LoadedState × Option String :=
  let name := ni.1
  let item := ni.2
  if item.hasProcess then
    let st1 := { st with
      events := st.events ++
        [(name, mkEventItem item.process item.timeout item.success item.fail)] }
    match item.file with
    | some f =>
      let tf := resolveUnder g.watch f
      let st2 := { st1 with
        triggers := st1.triggers ++ [⟨name, tf, item.backup⟩] }
      match itemWatchDir g isDir item with
      | some d => ({ st2 with watchDirs := addWatch st2.watchDirs d }, none)
      | none => (st2, none)
    | none =>
      match item.cron with
      | some c =>
        match addRule st1.cron c name with
        | .ok ct => ({ st1 with cron := ct }, none)
        | .error e => (st1, some e)
      | none => (st1, none)
  else (st, none)

/-- The Events loop of `load_config`: entries are processed in order;
the first exception aborts the loop, leaving the state the loop had
built up to that point. -/
def loadLoop (g : LoadFlags) (isDir : String → Bool) :
    List (String × RawEvent) → LoadedState → LoadedState × Option String
  | [], st => (st, none)
  | ni :: rest, st =>
    match loadItem g isDir st ni with
    | (st1, some e) => (st1, some e)
    | (st1, none) => loadLoop g isDir rest st1

/-- The code of `load_config` after the Events loop, as a function of
the loop outcome: an exception from the loop propagates as-is; otherwise
the recursive-mode root watch is added, the no-watch-directory check may
raise the fatal error, and finally the refresh watch on the config
file's parent is added.  The first component is the engine state when
the function returns or raises; the second the exception, if any. -/
def loadRunAux (g : LoadFlags) (p : LoadedState × Option String) :
    LoadedState × Option String :=
  match p with
  | (st, some e) => (st, some e)
  | (st, none) =>
    let st1 :=
      if g.recursive then { st with watchDirs := addWatch st.watchDirs g.watch }
      else st
    if st1.watchDirs.isEmpty then (st1, some "No vaild triggers, exit.")
    else
      ((if g.refresh then
          { st1 with watchDirs := addWatch st1.watchDirs g.confParent }
        else st1), none)

/-- One run of `load_config` on a freshly reset engine (empty trigger
list, empty events dict, cleared crontab, reset watcher): the resulting
engine state together with the exception that escaped, if any. -/
def loadRun (g : LoadFlags) (isDir : String → Bool)
    (raw : List (String × RawEvent)) : LoadedState × Option String :=
  loadRunAux g (loadLoop g isDir raw {})

/-- Embedding of `EventManager.load_config` on an already-parsed config
document, from a freshly reset engine: the new state, or the exception
that escaped (a TypeError from `crontab.add_rule`, or the fatal
no-watch-directory error). -/
def loadConfig (g : LoadFlags) (isDir : String → Bool)
    (raw : List (String × RawEvent)) : Except String LoadedState :=
  match loadRun g isDir raw with
  | (st, none) => .ok st
  | (_, some e) => .error e

/-- Embedding of the reload branch of `read_file_event`: the file watcher
is reset (all watches and buffered records discarded) and the crontab
cleared BEFORE `load_config` runs on the new document, and `load_config`
itself reassigns the trigger list and events dict, so nothing of the old
state survives into the result — the `old` argument records what was
torn down and is (faithfully) never consulted.  On success the fresh
state is installed; on failure the exception propagates and the engine
is left with the failed load's partial state. -/
def reloadStep (old : LoadedState) (g : LoadFlags) (isDir : String → Bool)
    (raw : List (String × RawEvent)) : LoadedState × Option String :=
  loadRun g isDir raw

/-- The log field of GeneralConfig holds a path-like value (a string or
`None`) when the dataclass is being constructed, and a Logger object once
`__post_init__` has run. -/
inductive LogVal where
  | path (p : Option String)
  | logger
  deriving Repr, DecidableEq

/-- Embedding of the `GeneralConfig` dataclass. -/
structure GeneralConfig where
  watch : String
  conf : String
  log : LogVal
  concurrent : Nat := 10
  recursive : Bool := false
  refresh : Bool := false
  delete : Bool := false
  debug : Bool := false
  deriving Repr, DecidableEq

/-- Embedding of `GeneralConfig.__post_init__`: watch and conf are
re-resolved (idempotent on the already-resolved strings held here, so
embedded as the identity), and the log field is passed through
`resolve_path_all` and `log.get_logger`.  A falsy or string-valued log
field yields a Logger; but if the field already holds a Logger object,
`os.path.expandvars` receives it and raises TypeError. -/
def postInitGC (g : GeneralConfig) : Except String GeneralConfig :=
  match g.log with
  | .logger =>
    .error "TypeError: expected str, bytes or os.PathLike object, not Logger"
  | .path _ => .ok { g with log := .logger }

/-- A top-level General section of a config document: each GeneralConfig
field is either named with a new value or absent. -/
structure GeneralSection where
  watch : Option String := none
  conf : Option String := none
  log : Option String := none
  concurrent : Option Nat := none
  recursive : Option Bool := none
  refresh : Option Bool := none
  delete : Option Bool := none
  debug : Option Bool := none
  deriving Repr, DecidableEq

/-- Embedding of `dataclasses.replace(self.config, **yml_conf["General"])`:
every field named in the section takes the new value, every other field
keeps its prior value, and `__post_init__` runs again on the result. -/
def replaceGC (g : GeneralConfig) (s : GeneralSection) :
    Except String GeneralConfig :=
  postInitGC
    { watch := s.watch.getD g.watch,
      conf := s.conf.getD g.conf,
      log := match s.log with
             | some l => .path (some l)
             | none => g.log,
      concurrent := s.concurrent.getD g.concurrent,
      recursive := s.recursive.getD g.recursive,
      refresh := s.refresh.getD g.refresh,
      delete := s.delete.getD g.delete,
      debug := s.debug.getD g.debug }

theorem lookup_go (m : Mapping) (k : String) (acc : Option String) :
    m.foldl (fun acc kv => if kv.1 = k then some kv.2 else acc) acc =
      match lookup m k with
      | some v => some v
      | none => acc := by
  induction m generalizing acc with
  | nil => simp [lookup]
  | cons kv tl ih =>
    simp only [lookup, List.foldl_cons] at ih ⊢
    rw [ih (if kv.1 = k then some kv.2 else acc),
        ih (if kv.1 = k then some kv.2 else none)]
    cases htl : tl.foldl (fun acc kv => if kv.1 = k then some kv.2 else acc)
        none with
    | some v => simp
    | none =>
      by_cases hp : kv.1 = k <;> simp [hp]

theorem lookup_append (a b : Mapping) (k : String) :
    lookup (a ++ b) k =
      match lookup b k with
      | some v => some v
      | none => lookup a k := by
  simp only [lookup, List.foldl_append]
  rw [lookup_go b k]
  rfl

theorem lookup_eq_none (m : Mapping) (k : String)
    (h : ∀ kv ∈ m, kv.1 ≠ k) : lookup m k = none := by
  induction m with
  | nil => simp [lookup]
  | cons kv tl ih =>
    simp only [lookup, List.foldl_cons]
    rw [if_neg (h kv (by simp))]
    exact ih fun x hx => h x (by simp [hx])

theorem lookup_nodup_mem (m : Mapping) (k : String) (v : String)
    (hnd : (m.map Prod.fst).Nodup) (hmem : (k, v) ∈ m) :
    lookup m k = some v := by
  induction m with
  | nil => simp at hmem
  | cons kv tl ih =>
    simp only [List.map_cons, List.nodup_cons] at hnd
    rcases List.mem_cons.mp hmem with hEq | hTl
    · subst hEq
      simp only [lookup, List.foldl_cons, if_pos rfl]
      rw [lookup_go]
      have hnone : lookup tl k = none := by
        apply lookup_eq_none
        intro x hx hk
        have hx1 := List.mem_map_of_mem Prod.fst hx
        rw [hk] at hx1
        exact absurd hx1 hnd.1
      simp [hnone]
    · simp only [lookup, List.foldl_cons]
      rw [lookup_go]
      rw [show lookup tl k = some v from ih hnd.2 hTl]

theorem mem_posPairs (vs : List String) (s : Nat) (kv : String × String)
    (h : kv ∈ posPairs s vs) :
    ∃ j, ∃ hj : j < vs.length, kv = (toString (s + j), vs.get ⟨j, hj⟩) := by
  induction vs generalizing s with
  | nil => simp [posPairs] at h
  | cons v tl ih =>
    simp only [posPairs, List.mem_cons] at h
    rcases h with hEq | hTl
    · exact ⟨0, by simp, by simpa using hEq⟩
    · obtain ⟨j, hj, hEq⟩ := ih (s + 1) hTl
      exact ⟨j + 1, by simpa using hj,
        by simpa [Nat.add_assoc, Nat.add_comm 1 j] using hEq⟩

theorem lookup_posPairs (vs : List String) (s i : Nat) (hi : i < vs.length)
    (huniq : ∀ j, j < vs.length → toString (s + j) = toString (s + i) → j = i) :
    lookup (posPairs s vs) (toString (s + i)) = some (vs.get ⟨i, hi⟩) := by
  induction vs generalizing s i with
  | nil => simp at hi
  | cons v tl ih =>
    simp only [posPairs]
    simp only [lookup, List.foldl_cons]
    rw [lookup_go]
    cases i with
    | zero =>
      have hnone : lookup (posPairs (s + 1) tl) (toString s) = none := by
        apply lookup_eq_none
        intro kv hkv hk
        obtain ⟨j, hj, hEq⟩ := mem_posPairs tl (s + 1) kv hkv
        subst hEq
        simp only at hk
        have h2 : toString (s + (j + 1)) = toString (s + 0) := by
          rw [show s + (j + 1) = s + 1 + j by omega, Nat.add_zero]
          exact hk
        have h3 := huniq (j + 1) (by simpa using hj) h2
        omega
      simp [hnone]
    | succ j =>
      have hj : j < tl.length := by simpa using hi
      have hlk := ih (s + 1) j hj (fun j2 hj2 hk => by
        have h4 : j2 + 1 = j + 1 := by
          apply huniq (j2 + 1) (by simpa using hj2)
          rw [show s + (j2 + 1) = s + 1 + j2 by omega,
              show s + (j + 1) = s + 1 + j by omega]
          exact hk
        omega)
      rw [show s + (j + 1) = s + 1 + j by omega]
      simp [hlk]

theorem length_filterMap_eq {α β : Type} (f : α → Option β) (l : List α) :
    (l.filterMap f).length = (l.filter fun a => (f a).isSome).length := by
  induction l with
  | nil => simp
  | cons a tl ih =>
    cases hfa : f a with
    | none => simp [List.filterMap_cons, List.filter_cons, hfa, ih]
    | some b => simp [List.filterMap_cons, List.filter_cons, hfa, ih]

theorem enqueued_mapping_eq (events : String → Option EventItem)
    (prevNV : Option (Option String)) (e e2 : EventItem) (pid : Nat)
    (kids : List Nat) (r : RunResult)
    (h : (workerIter events prevNV e pid kids r).enqueued = some e2) :
    e2.mapping = e.mapping := by
  cases r with
  | timedOut => cases prevNV <;> simp [workerIter] at h
  | completed rc =>
    simp only [workerIter] at h
    split at h
    · simp at h
    · split at h
      · simp at h
      · simp only [Option.some.injEq] at h
        rw [← h]
        rfl

theorem runChain_mapping (events : String → Option EventItem)
    (os : List RunResult) (e Z : EventItem)
    (h : runChain events e os = some Z) : Z.mapping = e.mapping := by
  induction os generalizing e with
  | nil => simp only [runChain, Option.some.injEq] at h; rw [h]
  | cons r rs ih =>
    simp only [runChain] at h
    cases henq : (workerIter events (some none) e 0 [] r).enqueued with
    | none => rw [henq] at h; simp at h
    | some nxt =>
      rw [henq] at h
      have h1 := enqueued_mapping_eq events (some none) e nxt 0 [] r henq
      rw [ih nxt h, h1]

theorem addWatch_ne_nil (ws : List String) (d : String) :
    addWatch ws d ≠ [] := by
  unfold addWatch
  split
  · intro hnil
    subst hnil
    simp_all
  · simp

/-- An Events entry that reaches the `crontab.add_rule` call: it has a
Process, no File, and a Cron key. -/
def isCronItem (item : RawEvent) : Bool :=
  item.hasProcess && item.file.isNone && item.cron.isSome

theorem loadItem_fst_watchDirs (g : LoadFlags) (isDir : String → Bool)
    (st : LoadedState) (ni : String × RawEvent) :
    (loadItem g isDir st ni).1.watchDirs =
      match itemWatchDir g isDir ni.2 with
      | some d => addWatch st.watchDirs d
      | none => st.watchDirs := by
  unfold loadItem itemWatchDir
  by_cases hp : ni.2.hasProcess <;> simp [hp]
  cases hf : ni.2.file with
  | none =>
    cases hc : ni.2.cron with
    | none => simp
    | some c => cases har : addRule st.cron c ni.1 <;> simp [har]
  | some f =>
    simp only
    split <;> simp

theorem loadItem_snd_cases (g : LoadFlags) (isDir : String → Bool)
    (st : LoadedState) (ni : String × RawEvent) :
    (loadItem g isDir st ni).2 = none ∨
    (loadItem g isDir st ni).2 =
      some "TypeError: generator objects are unorderable" := by
  unfold loadItem
  by_cases hp : ni.2.hasProcess <;> simp [hp]
  cases hf : ni.2.file with
  | some f =>
    simp only
    split <;> simp
  | none =>
    cases hc : ni.2.cron with
    | none => simp
    | some c =>
      unfold addRule
      by_cases he : st.cron.rules.isEmpty <;> simp [he]

theorem loadItem_snd_msg (g : LoadFlags) (isDir : String → Bool)
    (st : LoadedState) (ni : String × RawEvent) (e : String)
    (h : (loadItem g isDir st ni).2 = some e) :
    e = "TypeError: generator objects are unorderable" := by
  rcases loadItem_snd_cases g isDir st ni with hn | hs
  · rw [h] at hn
    simp at hn
  · rw [h] at hs
    simpa using hs

theorem loadItem_not_cron (g : LoadFlags) (isDir : String → Bool)
    (st : LoadedState) (ni : String × RawEvent)
    (h : isCronItem ni.2 = false) :
    (loadItem g isDir st ni).2 = none ∧
    (loadItem g isDir st ni).1.cron = st.cron := by
  unfold isCronItem at h
  unfold loadItem
  by_cases hp : ni.2.hasProcess <;> simp [hp]
  cases hf : ni.2.file with
  | some f =>
    simp only
    split <;> simp
  | none =>
    cases hc : ni.2.cron with
    | none => simp
    | some c => simp [hp, hf, hc] at h

theorem loadItem_cron_empty (g : LoadFlags) (isDir : String → Bool)
    (st : LoadedState) (ni : String × RawEvent)
    (h : isCronItem ni.2 = true) (he : st.cron.rules.isEmpty = true) :
    (loadItem g isDir st ni).2 = none ∧
    (loadItem g isDir st ni).1.cron.rules.isEmpty = false := by
  unfold isCronItem at h
  simp only [Bool.and_eq_true] at h
  obtain ⟨⟨hp, hf⟩, hc⟩ := h
  unfold loadItem
  rw [Option.isNone_iff_eq_none] at hf
  obtain ⟨c, hc2⟩ := Option.isSome_iff_exists.mp hc
  simp [hp, hf, hc2, addRule, he]

theorem loadItem_cron_nonempty (g : LoadFlags) (isDir : String → Bool)
    (st : LoadedState) (ni : String × RawEvent)
    (h : isCronItem ni.2 = true) (he : st.cron.rules.isEmpty = false) :
    (loadItem g isDir st ni).2 =
      some "TypeError: generator objects are unorderable" := by
  unfold isCronItem at h
  simp only [Bool.and_eq_true] at h
  obtain ⟨⟨hp, hf⟩, hc⟩ := h
  unfold loadItem
  rw [Option.isNone_iff_eq_none] at hf
  obtain ⟨c, hc2⟩ := Option.isSome_iff_exists.mp hc
  simp [hp, hf, hc2, addRule, he]

theorem loadLoop_cons_err (g : LoadFlags) (isDir : String → Bool)
    (x : String × RawEvent) (tl : List (String × RawEvent))
    (st st1 : LoadedState) (e : String)
    (hli : loadItem g isDir st x = (st1, some e)) :
    loadLoop g isDir (x :: tl) st = (st1, some e) := by
  simp only [loadLoop, hli]

theorem loadLoop_cons_ok (g : LoadFlags) (isDir : String → Bool)
    (x : String × RawEvent) (tl : List (String × RawEvent))
    (st st1 : LoadedState)
    (hli : loadItem g isDir st x = (st1, none)) :
    loadLoop g isDir (x :: tl) st = loadLoop g isDir tl st1 := by
  simp only [loadLoop, hli]

theorem loadLoop_watchDirs_eq_nil (g : LoadFlags) (isDir : String → Bool) :
    ∀ (raw : List (String × RawEvent)) (st : LoadedState),
      (loadLoop g isDir raw st).2 = none →
      ((loadLoop g isDir raw st).1.watchDirs = [] ↔
        st.watchDirs = [] ∧ ∀ x ∈ raw, itemWatchDir g isDir x.2 = none) := by
  intro raw
  induction raw with
  | nil => intro st _; simp [loadLoop]
  | cons x tl ih =>
    intro st h
    cases hli : loadItem g isDir st x with
    | mk st1 eo =>
      cases eo with
      | some e =>
        rw [loadLoop_cons_err g isDir x tl st st1 e hli] at h
        simp at h
      | none =>
        rw [loadLoop_cons_ok g isDir x tl st st1 hli] at h ⊢
        rw [ih st1 h]
        have hwd : st1.watchDirs =
            match itemWatchDir g isDir x.2 with
            | some d => addWatch st.watchDirs d
            | none => st.watchDirs := by
          have h3 := loadItem_fst_watchDirs g isDir st x
          rw [hli] at h3
          exact h3
        constructor
        · rintro ⟨h1, h2⟩
          rw [hwd] at h1
          cases hiw : itemWatchDir g isDir x.2 with
          | some d =>
            rw [hiw] at h1
            exact absurd h1 (addWatch_ne_nil st.watchDirs d)
          | none =>
            rw [hiw] at h1
            refine ⟨h1, ?_⟩
            intro y hy
            rcases List.mem_cons.mp hy with hEq | hTl
            · rw [hEq]; exact hiw
            · exact h2 y hTl
        · rintro ⟨h1, h2⟩
          have hiw : itemWatchDir g isDir x.2 = none := h2 x (by simp)
          refine ⟨?_, fun y hy => h2 y (by simp [hy])⟩
          rw [hwd, hiw]
          exact h1

theorem loadLoop_err_msg (g : LoadFlags) (isDir : String → Bool) :
    ∀ (raw : List (String × RawEvent)) (st : LoadedState) (e : String),
      (loadLoop g isDir raw st).2 = some e →
      e = "TypeError: generator objects are unorderable" := by
  intro raw
  induction raw with
  | nil => intro st e h; simp [loadLoop] at h
  | cons x tl ih =>
    intro st e h
    cases hli : loadItem g isDir st x with
    | mk st1 eo =>
      cases eo with
      | some e1 =>
        rw [loadLoop_cons_err g isDir x tl st st1 e1 hli] at h
        simp only [Option.some.injEq] at h
        rw [← h]
        exact loadItem_snd_msg g isDir st x e1 (by rw [hli])
      | none =>
        rw [loadLoop_cons_ok g isDir x tl st st1 hli] at h
        exact ih st1 e h

theorem loadLoop_err_char (g : LoadFlags) (isDir : String → Bool) :
    ∀ (raw : List (String × RawEvent)) (st : LoadedState),
      ((loadLoop g isDir raw st).2 = none ↔
        (raw.filter fun x => isCronItem x.2).length +
          (if st.cron.rules.isEmpty then 0 else 1) ≤ 1) := by
  intro raw
  induction raw with
  | nil =>
    intro st
    constructor
    · intro _
      simp only [List.filter_nil, List.length_nil]
      split <;> omega
    · intro _
      rfl
  | cons x tl ih =>
    intro st
    cases hx : isCronItem x.2 with
    | false =>
      obtain ⟨h1, h2⟩ := loadItem_not_cron g isDir st x hx
      cases hli : loadItem g isDir st x with
      | mk st1 eo =>
        rw [hli] at h1 h2
        simp only at h1 h2
        subst h1
        rw [loadLoop_cons_ok g isDir x tl st st1 hli]
        rw [ih st1, h2]
        simp [List.filter_cons, hx]
    | true =>
      cases he : st.cron.rules.isEmpty with
      | true =>
        obtain ⟨h1, h2⟩ := loadItem_cron_empty g isDir st x hx he
        cases hli : loadItem g isDir st x with
        | mk st1 eo =>
          rw [hli] at h1 h2
          simp only at h1 h2
          subst h1
          rw [loadLoop_cons_ok g isDir x tl st st1 hli]
          rw [ih st1, h2]
          simp [List.filter_cons, hx]
          try omega
      | false =>
        have h1 := loadItem_cron_nonempty g isDir st x hx he
        cases hli : loadItem g isDir st x with
        | mk st1 eo =>
          rw [hli] at h1
          simp only at h1
          subst h1
          rw [loadLoop_cons_err g isDir x tl st st1 _ hli]
          simp [List.filter_cons, hx]
          try omega

/-- Claim C3: for every dequeued instance whose process exceeds its
declared timeout, the worker kills every descendant of the launched
process and then the process itself, the outcome is Timeout, and no
follow-up instance is enqueued, even when the instance declares
non-empty success and/or fail events (the theorem quantifies over every
`EventItem`, hence over every setting of those fields). -/
theorem c3_timeout_kills_and_never_chains (events : String → Option EventItem)
    (prevNV : Option (Option String)) (e : EventItem) (pid : Nat)
    (kids : List Nat) :
    ((workerIter events prevNV e pid kids .timedOut).killed = kids ++ [pid]) ∧
    ((workerIter events prevNV e pid kids .timedOut).stats = "Timeout") ∧
    ((workerIter events prevNV e pid kids .timedOut).enqueued = none) := by
  cases prevNV <;> simp [workerIter]

/-- Events dict for the worker-crash scenario: only the event B exists. -/
def c4Events : String → Option EventItem := fun n =>
  if n = "B" then some (mkEventItem "echo b" none none none) else none

/-- A queued instance whose event declares a 1-second timeout and both
chain fields. -/
def c4Inst : EventItem :=
  replaceMappingOpt (mkEventItem "sleep 5" (some 1) (some "B") (some "B"))
    (some [("file", "/w/a")])

/-- Claim C4 (code bug): when the very first instance a worker handles
times out, the logging call reads the loop-local variable next_event,
which no iteration has bound yet, so the iteration raises
UnboundLocalError instead of completing, and nothing is logged; on a
later iteration a timeout logs the stale next-event name of the previous
iteration even though nothing was chained. -/
theorem c4_first_timeout_unbound_crash :
    (workerIter c4Events none c4Inst 321 [322, 323] .timedOut).raised =
      some "UnboundLocalError: next_event" ∧
    (workerIter c4Events none c4Inst 321 [322, 323] .timedOut).logMsg = none ∧
    (workerIter c4Events (some (some "B")) c4Inst 321 [322, 323]
        .timedOut).logMsg = some (c4Inst.sub, 321, some "B") ∧
    (workerIter c4Events (some (some "B")) c4Inst 321 [322, 323]
        .timedOut).enqueued = none :=
  ⟨rfl, rfl, rfl, rfl⟩

/-- Claim C2: chaining preserves the substitution mapping.  When a
worker's instance for event A completes with outcome success (exit code
0) or fail (nonzero exit) and the corresponding field names a non-empty
event B present in the events dict, the enqueued instance for B carries
exactly A's substitution mapping and its resolved command is B's own
template substituted with that mapping; when the referenced name is
empty (or None) nothing is enqueued; and over a chain of any length the
mapping is preserved unchanged. -/
theorem c2_chain_preserves_mapping
    (events : String → Option EventItem) (A B : EventItem) (m : Mapping)
    (b : String) (pid : Nat) (kids : List Nat)
    (prevNV : Option (Option String))
    (hm : A.mapping = some m) (hne : m.isEmpty = false) :
    (truthyOpt A.success = some b → events b = some B →
      (workerIter events prevNV A pid kids (.completed 0)).enqueued =
        some { B with mapping := some m,
                      sub := safeSubstitute B.template m }) ∧
    (∀ rc : Int, rc ≠ 0 → truthyOpt A.fail = some b → events b = some B →
      (workerIter events prevNV A pid kids (.completed rc)).enqueued =
        some { B with mapping := some m,
                      sub := safeSubstitute B.template m }) ∧
    (truthyOpt A.success = none →
      (workerIter events prevNV A pid kids (.completed 0)).enqueued = none) ∧
    (∀ rc : Int, rc ≠ 0 → truthyOpt A.fail = none →
      (workerIter events prevNV A pid kids (.completed rc)).enqueued = none) ∧
    (∀ os Z, runChain events A os = some Z → Z.mapping = some m) := by
  refine ⟨?_, ?_, ?_, ?_, ?_⟩
  · intro hs hB
    simp only [workerIter]
    have h0 : decide ((0 : Int) ≠ 0) = false := by decide
    simp only [h0, Bool.false_eq_true, if_false, hs, hB, hm,
      replaceMappingOpt, hne]
  · intro rc hrc hs hB
    simp only [workerIter]
    have h1 : decide (rc ≠ 0) = true := decide_eq_true hrc
    simp only [h1, if_true, hs, hB, hm, replaceMappingOpt, hne,
      Bool.false_eq_true, if_false]
  · intro hs
    simp only [workerIter]
    have h0 : decide ((0 : Int) ≠ 0) = false := by decide
    simp only [h0, Bool.false_eq_true, if_false, hs]
  · intro rc hrc hs
    simp only [workerIter]
    have h1 : decide (rc ≠ 0) = true := decide_eq_true hrc
    simp only [h1, if_true, hs]
  · intro os Z h
    rw [runChain_mapping events os A Z h, hm]

/-- Events dict for the chain-preservation witness. -/
def c2Events : String → Option EventItem := fun n =>
  if n = "B" then some (mkEventItem "handle $file" none none none)
  else if n = "A" then some (mkEventItem "run $file" none (some "B") none)
  else none

/-- The worker instance of event A with its file mapping attached. -/
def c2A : EventItem :=
  replaceMappingOpt (mkEventItem "run $file" none (some "B") none)
    (some [("file", "/w/a")])

/-- Registry item of event B. -/
def c2B : EventItem := mkEventItem "handle $file" none none none

theorem c2_chain_preserves_mapping_witness :
    c2A.mapping = some [("file", "/w/a")] ∧
    ([("file", "/w/a")] : Mapping).isEmpty = false ∧
    truthyOpt c2A.success = some "B" ∧
    c2Events "B" = some c2B ∧
    (workerIter c2Events (some none) c2A 7 [] (.completed 0)).enqueued =
      some { c2B with mapping := some [("file", "/w/a")],
                      sub := safeSubstitute c2B.template [("file", "/w/a")] } ∧
    { c2B with mapping := some ([("file", "/w/a")] : Mapping),
               sub := safeSubstitute c2B.template
                 [("file", "/w/a")] }.mapping = some [("file", "/w/a")] := by
  refine ⟨rfl, rfl, rfl, rfl, ?_, ?_⟩
  · exact (c2_chain_preserves_mapping c2Events c2A c2B [("file", "/w/a")]
      "B" 7 [] (some none) rfl rfl).1 rfl rfl
  · exact (c2_chain_preserves_mapping c2Events c2A c2B [("file", "/w/a")]
      "B" 7 [] (some none) rfl rfl).2.2.2.2 [.completed 0]
      { c2B with mapping := some [("file", "/w/a")],
                 sub := safeSubstitute c2B.template [("file", "/w/a")] } rfl

/-- Claim C5 (code bug): `crule.get_next_time` is a generator function,
so `add_rule` keys the pending structure by a fresh generator object, not
by the rule's first future occurrence time; `generate()` then raises
TypeError when it subtracts the current datetime from that key, and a
second `add_rule` raises TypeError when the sorted container tries to
order two generator objects. -/
theorem c5_cron_generator_key :
    addRule {} "0 12 1 1 0" "A" =
      .ok { rules := [(CronKey.genObj 0, [("0 12 1 1 0", "A")])],
            nextId := 1 } ∧
    (∀ t : Nat, CronKey.genObj 0 ≠ CronKey.dt t) ∧
    generateStep { rules := [(CronKey.genObj 0, [("0 12 1 1 0", "A")])],
                   nextId := 1 } =
      .error
        "TypeError: unsupported operand types for subtraction: generator and datetime" ∧
    addRule { rules := [(CronKey.genObj 0, [("0 12 1 1 0", "A")])],
              nextId := 1 } "30 6 2 2 1" "B" =
      .error "TypeError: generator objects are unorderable" :=
  ⟨rfl, fun _ h => CronKey.noConfusion h, rfl, rfl⟩

/-- GeneralConfig as the CLI constructs it, before `__post_init__`. -/
def c8Initial : GeneralConfig :=
  { watch := "/w", conf := "/etc/em.yml", log := .path none }

/-- The running config: `__post_init__` has replaced the log field by a
Logger object. -/
def c8Running : GeneralConfig :=
  { watch := "/w", conf := "/etc/em.yml", log := .logger }

/-- Claim C8 (code bug): merging a well-formed General section that does
not name the log field crashes.  `dataclasses.replace` copies the prior
log value — by now a Logger object — and the re-run `__post_init__`
feeds it to `os.path.expandvars`, raising TypeError; only a section that
names log survives, and then unnamed fields do keep their prior
values. -/
theorem c8_general_merge_reinit_crash :
    postInitGC c8Initial = .ok c8Running ∧
    replaceGC c8Running { concurrent := some 5 } =
      .error "TypeError: expected str, bytes or os.PathLike object, not Logger" ∧
    replaceGC c8Running { concurrent := some 5, log := some "/var/log/em" } =
      .ok { c8Running with concurrent := 5 } :=
  ⟨rfl, rfl, rfl⟩

theorem isEmpty_eq_nil {α : Type} (l : List α) : l.isEmpty = true ↔ l = [] := by
  cases l <;> simp

theorem isEmpty_false_of_ne_nil {α : Type} {l : List α} (h : l ≠ []) :
    l.isEmpty = false := by
  cases l with
  | nil => exact absurd rfl h
  | cons a tl => rfl

theorem loadConfig_error_iff (g : LoadFlags) (isDir : String → Bool)
    (raw : List (String × RawEvent)) (e : String) :
    loadConfig g isDir raw = .error e ↔ (loadRun g isDir raw).2 = some e := by
  unfold loadConfig
  cases h : loadRun g isDir raw with
  | mk st eo => cases eo <;> simp

/-- Characterisation of the fatal "nothing to watch" error of
`load_config`: it is raised exactly when the Events loop completes
without an exception (see `loadLoop_err_char`: at most one cron rule)
and, recursive mode being off, no Events entry contributed a watch
directory.  Cron rules never appear in the watch condition. -/
theorem load_error_char (g : LoadFlags) (isDir : String → Bool)
    (raw : List (String × RawEvent)) :
    loadConfig g isDir raw = .error "No vaild triggers, exit." ↔
      ((loadLoop g isDir raw {}).2 = none ∧ g.recursive = false ∧
        ∀ x ∈ raw, itemWatchDir g isDir x.2 = none) := by
  rw [loadConfig_error_iff]
  unfold loadRun
  cases hp : loadLoop g isDir raw {} with
  | mk st0 e0 =>
    cases e0 with
    | some e =>
      have hmsg := loadLoop_err_msg g isDir raw {} e (by rw [hp])
      subst hmsg
      simp only [loadRunAux]
      constructor
      · intro h2
        simp only [Option.some.injEq] at h2
        exact absurd h2 (by decide)
      · rintro ⟨h1, _⟩
        simp at h1
    | none =>
      have hloop : (loadLoop g isDir raw {}).2 = none := by rw [hp]
      have hwd := loadLoop_watchDirs_eq_nil g isDir raw {} hloop
      rw [hp] at hwd
      simp at hwd
      simp only [loadRunAux]
      by_cases hr : g.recursive = true
      · have hne : (addWatch st0.watchDirs g.watch).isEmpty = false :=
          isEmpty_false_of_ne_nil (addWatch_ne_nil _ _)
        rw [if_pos hr]
        simp only [hne, Bool.false_eq_true, if_false]
        constructor
        · intro h2
          simp at h2
        · rintro ⟨_, h2, _⟩
          rw [hr] at h2
          exact absurd h2 (by decide)
      · rw [if_neg hr]
        by_cases hempty : st0.watchDirs.isEmpty = true
        · rw [if_pos hempty]
          constructor
          · intro _
            refine ⟨by simp, by simpa using hr, ?_⟩
            intro x hx
            exact hwd.mp ((isEmpty_eq_nil _).mp hempty) x.1 x.2 hx
          · intro _
            simp
        · rw [if_neg hempty]
          constructor
          · intro h2
            simp at h2
          · rintro ⟨-, -, hall⟩
            have hnil : st0.watchDirs = [] :=
              hwd.mpr fun a bb hab => hall (a, bb) hab
            exact absurd ((isEmpty_eq_nil _).mpr hnil) hempty

/-- Claim C6 (amended): the fatal "nothing to watch" error is raised
exactly when the Events loop completes without an exception and leaves
the file watcher with no watch directory — recursive mode off and no
entry with Process and File whose parent directory exists.  Cron rules
never prevent the fatal error (the counterexample registers one cron
rule and still raises it); and the Events loop itself completes exactly
when at most one cron rule is registered, a second one raising the
crontab TypeError of C5 before the fatal check is ever reached.  In
recursive mode the fatal error never occurs, even with zero triggers
and zero cron rules. -/
theorem c6_load_error_iff_no_watchdir (g : LoadFlags) (isDir : String → Bool)
    (raw : List (String × RawEvent)) :
    (loadConfig g isDir raw = .error "No vaild triggers, exit." ↔
      ((loadLoop g isDir raw {}).2 = none ∧ g.recursive = false ∧
        ∀ x ∈ raw, itemWatchDir g isDir x.2 = none)) ∧
    ((loadLoop g isDir raw {}).2 = none ↔
      (raw.filter fun x => isCronItem x.2).length ≤ 1) := by
  refine ⟨load_error_char g isDir raw, ?_⟩
  have h := loadLoop_err_char g isDir raw {}
  simpa using h

/-- Load flags of a plain non-recursive, non-refresh run. -/
def emFlags : LoadFlags :=
  { watch := "/w", confParent := "/etc", recursive := false, refresh := false }

/-- A config document with exactly one event, which is cron-triggered. -/
def c6Raw : List (String × RawEvent) :=
  [("A", { hasProcess := true, process := "backup.sh",
           cron := some "0 12 1 1 0" })]

/-- Claim C6 counterexample: this configuration registers one cron rule
(and zero triggers), the Events loop completes, yet loading raises the
fatal error — refuting the claim that a configuration with at least one
cron rule loads without it. -/
theorem c6_counterexample :
    (loadLoop emFlags (fun _ => true) c6Raw {}).1.cron.rules =
      [(CronKey.genObj 0, [("0 12 1 1 0", "A")])] ∧
    (loadLoop emFlags (fun _ => true) c6Raw {}).1.triggers = [] ∧
    (loadLoop emFlags (fun _ => true) c6Raw {}).2 = none ∧
    loadConfig emFlags (fun _ => true) c6Raw =
      .error "No vaild triggers, exit." :=
  ⟨rfl, rfl, rfl, rfl⟩

/-- Events entries with the chain fields cleared. -/
def stripChains (raw : List (String × RawEvent)) :
    List (String × RawEvent) :=
  raw.map fun ni => (ni.1, { ni.2 with success := none, fail := none })

theorem itemWatchDir_strip (g : LoadFlags) (isDir : String → Bool)
    (item : RawEvent) :
    itemWatchDir g isDir { item with success := none, fail := none } =
      itemWatchDir g isDir item := rfl

theorem loadItem_strip_inv (g : LoadFlags) (isDir : String → Bool)
    (st st1 : LoadedState) (ni : String × RawEvent)
    (hc : st1.cron = st.cron) :
    (loadItem g isDir st1
        (ni.1, { ni.2 with success := none, fail := none })).2 =
      (loadItem g isDir st ni).2 ∧
    (loadItem g isDir st1
        (ni.1, { ni.2 with success := none, fail := none })).1.cron =
      (loadItem g isDir st ni).1.cron := by
  obtain ⟨name, item⟩ := ni
  obtain ⟨hasP, pr, tmo, su, fa, fi, ba, cr⟩ := item
  unfold loadItem
  cases hasP with
  | false => simp [hc]
  | true =>
    simp only
    cases fi with
    | some f =>
      have hiw : itemWatchDir g isDir
          { hasProcess := true, process := pr, timeout := tmo,
            success := none, fail := none, file := some f,
            backup := ba, cron := cr } =
        itemWatchDir g isDir
          { hasProcess := true, process := pr, timeout := tmo,
            success := su, fail := fa, file := some f,
            backup := ba, cron := cr } := rfl
      rw [hiw]
      cases itemWatchDir g isDir
          { hasProcess := true, process := pr, timeout := tmo,
            success := su, fail := fa, file := some f,
            backup := ba, cron := cr } <;> simp [hc]
    | none =>
      cases cr with
      | none => simp [hc]
      | some c =>
        rw [hc]
        cases har : addRule st.cron c name <;> simp [har, hc]

theorem loadLoop_strip_inv (g : LoadFlags) (isDir : String → Bool) :
    ∀ (raw : List (String × RawEvent)) (st st1 : LoadedState),
      st1.cron = st.cron →
      (loadLoop g isDir (stripChains raw) st1).2 =
        (loadLoop g isDir raw st).2 ∧
      (loadLoop g isDir (stripChains raw) st1).1.cron =
        (loadLoop g isDir raw st).1.cron := by
  intro raw
  induction raw with
  | nil =>
    intro st st1 hc
    simp [stripChains, loadLoop, hc]
  | cons x tl ih =>
    intro st st1 hc
    obtain ⟨h2, hcron⟩ := loadItem_strip_inv g isDir st st1 x hc
    rw [show stripChains (x :: tl) =
      (x.1, { x.2 with success := none, fail := none }) :: stripChains tl
      from rfl]
    cases hli : loadItem g isDir st x with
    | mk stA eo =>
      cases hli2 : loadItem g isDir st1
          (x.1, { x.2 with success := none, fail := none }) with
      | mk stB eo2 =>
        rw [hli, hli2] at h2 hcron
        simp only at h2 hcron
        subst h2
        cases eo2 with
        | some e =>
          rw [loadLoop_cons_err g isDir _ tl st stA e hli,
              loadLoop_cons_err g isDir _ (stripChains tl) st1 stB e hli2]
          exact ⟨rfl, hcron⟩
        | none =>
          rw [loadLoop_cons_ok g isDir _ tl st stA hli,
              loadLoop_cons_ok g isDir _ (stripChains tl) st1 stB hli2]
          exact ih stA stB hcron

/-- Claim C7 (amended): `load_config` performs no validation of the
success/fail references — its outcome is unchanged when every chain
field is cleared — and a dangling reference instead surfaces at dispatch
time: the worker's lookup of the next-event name raises KeyError and
nothing is enqueued. -/
theorem c7_dangling_defers_to_dispatch (g : LoadFlags)
    (isDir : String → Bool) (raw : List (String × RawEvent))
    (events : String → Option EventItem) (e : EventItem) (b : String)
    (pid : Nat) (kids : List Nat) (prevNV : Option (Option String))
    (hs : truthyOpt e.success = some b) (hev : events b = none) :
    (loadConfig g isDir raw = .error "No vaild triggers, exit." ↔
      loadConfig g isDir (stripChains raw) =
        .error "No vaild triggers, exit.") ∧
    (workerIter events prevNV e pid kids (.completed 0)).raised =
      some ("KeyError: " ++ b) ∧
    (workerIter events prevNV e pid kids (.completed 0)).enqueued = none := by
  refine ⟨?_, ?_, ?_⟩
  · rw [load_error_char, load_error_char]
    have hstrip := (loadLoop_strip_inv g isDir raw {} {} rfl).1
    constructor
    · rintro ⟨h0, hrec, hall⟩
      refine ⟨by rw [hstrip]; exact h0, hrec, ?_⟩
      intro x hx
      unfold stripChains at hx
      rw [List.mem_map] at hx
      obtain ⟨y, hy, hxy⟩ := hx
      subst hxy
      exact hall y hy
    · rintro ⟨h0, hrec, hall⟩
      refine ⟨by rw [← hstrip]; exact h0, hrec, ?_⟩
      intro x hx
      exact hall (x.1, { x.2 with success := none, fail := none })
        (List.mem_map_of_mem _ hx)
  · simp only [workerIter, show decide ((0 : Int) ≠ 0) = false by decide,
      Bool.false_eq_true, if_false, hs, hev]
  · simp only [workerIter, show decide ((0 : Int) ≠ 0) = false by decide,
      Bool.false_eq_true, if_false, hs, hev]

/-- A config whose single event names the undefined event B as its
success chain. -/
def c7Raw : List (String × RawEvent) :=
  [("A", { hasProcess := true, process := "run.sh", file := some "data/x",
           success := some "B" })]

/-- The registry item of event A in `c7Raw`. -/
def c7ItemA : EventItem := mkEventItem "run.sh" none (some "B") none

/-- The events dict loaded from `c7Raw`: only A is defined. -/
def c7Events : String → Option EventItem := fun n =>
  if n = "A" then some c7ItemA else none

theorem c7_dangling_defers_to_dispatch_witness :
    truthyOpt c7ItemA.success = some "B" ∧
    c7Events "B" = none ∧
    ((loadConfig emFlags (fun _ => true) c7Raw =
        .error "No vaild triggers, exit." ↔
      loadConfig emFlags (fun _ => true) (stripChains c7Raw) =
        .error "No vaild triggers, exit.") ∧
    (workerIter c7Events (some none) c7ItemA 9 [] (.completed 0)).raised =
      some ("KeyError: " ++ "B") ∧
    (workerIter c7Events (some none) c7ItemA 9 [] (.completed 0)).enqueued =
      none) :=
  ⟨rfl, rfl,
    c7_dangling_defers_to_dispatch emFlags (fun _ => true) c7Raw c7Events
      c7ItemA "B" 9 [] (some none) rfl rfl⟩

/-- Claim C7 counterexample: loading `c7Raw` succeeds even though its
success field references the undefined event B — no validation error is
raised at load time — and the worker's later lookup of B is the failing
one.  This refutes the claim that a dangling reference fails config
loading. -/
theorem c7_counterexample :
    loadConfig emFlags (fun _ => true) c7Raw =
      .ok { triggers := [⟨"A", "/w/data/x", none⟩],
            events := [("A", c7ItemA)],
            cron := {}, watchDirs := ["/w/data"] } ∧
    (c7Raw.all fun ni => !(ni.1 == "B")) = true ∧
    (workerIter c7Events (some none) c7ItemA 9 [] (.completed 0)).raised =
      some "KeyError: B" :=
  ⟨rfl, rfl, rfl⟩

/-- Claim C9 (amended): the reload path tears the old state down first —
`FileWatcher.reset` and `clear_all_rules` run before the new config is
parsed, and `load_config` rebuilds triggers and events from scratch — so
the result of a reload is entirely independent of the old state, and
when the new document is invalid the exception propagates and the engine
is left with the failed load's partial state; in particular, when the
failure is the fatal no-watch-directory error, no watch directory at all
remains.  Nothing restores the old watches or rules on failure. -/
theorem c9_reload_discards_old_state (old : LoadedState) (g : LoadFlags)
    (isDir : String → Bool) (raw : List (String × RawEvent)) (err : String)
    (h : loadConfig g isDir raw = .error err) :
    (reloadStep old g isDir raw).2 = some err ∧
    (∀ old2 : LoadedState,
      reloadStep old2 g isDir raw = reloadStep old g isDir raw) ∧
    (err = "No vaild triggers, exit." →
      (reloadStep old g isDir raw).1.watchDirs = []) := by
  have hrun : (loadRun g isDir raw).2 = some err :=
    (loadConfig_error_iff g isDir raw err).mp h
  refine ⟨hrun, fun old2 => rfl, ?_⟩
  intro hf
  subst hf
  show (loadRun g isDir raw).1.watchDirs = []
  unfold loadRun at hrun ⊢
  cases hp : loadLoop g isDir raw {} with
  | mk st0 e0 =>
    rw [hp] at hrun
    cases e0 with
    | some e =>
      have hmsg := loadLoop_err_msg g isDir raw {} e (by rw [hp])
      subst hmsg
      simp only [loadRunAux, Option.some.injEq] at hrun
      exact absurd hrun (by decide)
    | none =>
      simp only [loadRunAux] at hrun ⊢
      by_cases hr : g.recursive = true
      · rw [if_pos hr] at hrun ⊢
        have hne : (addWatch st0.watchDirs g.watch).isEmpty = false :=
          isEmpty_false_of_ne_nil (addWatch_ne_nil _ _)
        simp [hne] at hrun
      · rw [if_neg hr] at hrun ⊢
        by_cases hempty : st0.watchDirs.isEmpty = true
        · rw [if_pos hempty]
          exact (isEmpty_eq_nil _).mp hempty
        · rw [if_neg hempty] at hrun
          simp at hrun

/-- A running engine state before reload: one trigger watch and one cron
rule are registered. -/
def c9Old : LoadedState :=
  { triggers := [⟨"A", "/w/data/x", none⟩],
    events := [("A", mkEventItem "run.sh" none none none)],
    cron := { rules := [(CronKey.genObj 0, [("0 12 1 1 0", "A")])],
              nextId := 1 },
    watchDirs := ["/w/data"] }

theorem c9_reload_discards_old_state_witness :
    loadConfig emFlags (fun _ => true) [] =
      .error "No vaild triggers, exit." ∧
    (reloadStep c9Old emFlags (fun _ => true) []).2 =
      some "No vaild triggers, exit." ∧
    reloadStep {} emFlags (fun _ => true) [] =
      reloadStep c9Old emFlags (fun _ => true) [] ∧
    (reloadStep c9Old emFlags (fun _ => true) []).1.watchDirs = [] := by
  have h := c9_reload_discards_old_state c9Old emFlags (fun _ => true) []
    "No vaild triggers, exit." rfl
  exact ⟨rfl, h.1, h.2.1 {}, h.2.2 rfl⟩

/-- Claim C9 counterexample: reloading `c9Old` against an invalid (empty)
config document fails, yet the old watch directory and cron rule are
gone — the previously registered watches and rules do NOT remain in
effect, refuting the all-or-nothing claim. -/
theorem c9_counterexample :
    (reloadStep c9Old emFlags (fun _ => true) []).2 =
      some "No vaild triggers, exit." ∧
    (reloadStep c9Old emFlags (fun _ => true) []).1.watchDirs = [] ∧
    (reloadStep c9Old emFlags (fun _ => true) []).1.cron.rules = [] ∧
    c9Old.watchDirs = ["/w/data"] ∧
    c9Old.cron.rules = [(CronKey.genObj 0, [("0 12 1 1 0", "A")])] :=
  ⟨rfl, rfl, rfl, rfl, rfl⟩

/-- Claim C10 (amended): a file record matching no trigger enqueues
nothing and makes no backup, but the final delete check of
`read_file_event` runs regardless of matching: with the delete flag set
and the path still a file, the reported file is deleted even though it
triggered no dispatch. -/
theorem c10_nonmatching_record (triggers : List TriggerItem)
    (deleteFlag : Bool) (isFile : String → Bool)
    (events : String → EventItem) (path : String)
    (h : ∀ t ∈ triggers, t.matchPat path = none) :
    fileEventInstances triggers events path = [] ∧
    fileEventEffects triggers deleteFlag isFile path =
      (if deleteFlag && isFile path
       then [FsEffect.deleteFile path] else []) := by
  constructor
  · unfold fileEventInstances
    rw [List.filterMap_eq_nil_iff]
    intro t ht
    rw [h t ht]
    rfl
  · unfold fileEventEffects
    have h2 : (triggers.filterMap fun t =>
        (t.matchPat path).bind fun m => t.backup.map fun b =>
          FsEffect.backupCopy path
            (safeSubstitute b (buildMapping m path))) = [] := by
      rw [List.filterMap_eq_nil_iff]
      intro t ht
      rw [h t ht]
      rfl
    rw [h2, List.nil_append]

/-- A trigger whose pattern matches nothing (the oracle returns `None`
on every path, as `re.match` does when the pattern fails). -/
def c10T : TriggerItem :=
  { event := "A", matchPat := fun _ => none, backup := some "/w/backup/x" }

theorem c10_nonmatching_record_witness :
    (∀ t ∈ [c10T], t.matchPat "/w/other" = none) ∧
    fileEventInstances [c10T] (fun _ => mkEventItem "p" none none none)
      "/w/other" = [] ∧
    fileEventEffects [c10T] true (fun _ => true) "/w/other" =
      [FsEffect.deleteFile "/w/other"] := by
  have hmat : ∀ t ∈ [c10T], t.matchPat "/w/other" = none := by
    intro t ht
    rw [List.mem_singleton] at ht
    subst ht
    rfl
  have h := c10_nonmatching_record [c10T] true (fun _ => true)
    (fun _ => mkEventItem "p" none none none) "/w/other" hmat
  exact ⟨hmat, h.1, by rw [h.2]; rfl⟩

/-- Claim C10 counterexample: with the delete flag set, a file record
matching no trigger still gets its file deleted — the filesystem is NOT
left unchanged, refuting the claim that deletion applies only to files
that triggered a dispatch. -/
theorem c10_counterexample :
    fileEventInstances [c10T] (fun _ => mkEventItem "p" none none none)
      "/w/other" = [] ∧
    fileEventEffects [c10T] true (fun _ => true) "/w/other" =
      [FsEffect.deleteFile "/w/other"] ∧
    ([FsEffect.deleteFile "/w/other"] : List FsEffect) ≠ [] :=
  ⟨rfl, rfl, by simp⟩

/-- Claim C1 (amended): every trigger whose pattern matches the reported
path independently enqueues exactly one instance (the instance count
equals the matching-trigger count, and each matching trigger's instance
— the trigger's event with the built mapping attached — is enqueued);
the mapping holds the matched path under the key file, every positional
capture group under its 1-based decimal key, and every named capture
group EXCEPT one named file, whose entry the path insertion overwrites
(the counterexample below); group names are Python identifiers, so they
never collide with the decimal positional keys, which the two
freshness hypotheses record. -/
theorem c1_dispatch_and_mapping (triggers : List TriggerItem)
    (events : String → EventItem) (path : String) (t : TriggerItem)
    (m : MatchResult) (ht : t ∈ triggers) (hm : t.matchPat path = some m)
    (hnd : (m.named.map Prod.fst).Nodup) :
    (fileEventInstances triggers events path).length =
      (triggers.filter fun tr => (tr.matchPat path).isSome).length ∧
    replaceMappingOpt (events t.event) (some (buildMapping m path)) ∈
      fileEventInstances triggers events path ∧
    lookup (buildMapping m path) "file" = some path ∧
    (∀ name v, (name, v) ∈ m.named → name ≠ "file" →
      (∀ j, j < m.groups.length → toString (j + 1) ≠ name) →
      lookup (buildMapping m path) name = some v) ∧
    (∀ i, ∀ hi : i < m.groups.length, toString (i + 1) ≠ "file" →
      (∀ j, j < m.groups.length →
        toString (j + 1) = toString (i + 1) → j = i) →
      lookup (buildMapping m path) (toString (i + 1)) =
        some (m.groups.get ⟨i, hi⟩)) := by
  refine ⟨?_, ?_, ?_, ?_, ?_⟩
  · rw [fileEventInstances, length_filterMap_eq]
    apply congrArg List.length
    apply List.filter_congr
    intro x hx
    cases x.matchPat path <;> rfl
  · apply List.mem_filterMap.mpr
    exact ⟨t, ht, by rw [hm]; rfl⟩
  · simp only [buildMapping, lookup_append]
    simp [lookup]
  · intro name v hmem hne hnum
    have h1 : lookup [("file", path)] name = none := by
      simp [lookup, Ne.symm hne]
    have h2 : lookup (posPairs 1 m.groups) name = none := by
      apply lookup_eq_none
      intro kv hkv hk
      obtain ⟨j, hj, hEq⟩ := mem_posPairs _ _ _ hkv
      subst hEq
      simp only at hk
      rw [Nat.add_comm 1 j] at hk
      exact hnum j hj hk
    simp only [buildMapping, lookup_append, h1, h2]
    exact lookup_nodup_mem _ _ _ hnd hmem
  · intro i hi hne huniq
    have h1 : lookup [("file", path)] (toString (i + 1)) = none := by
      simp [lookup, Ne.symm hne]
    have h2 := lookup_posPairs m.groups 1 i hi (fun j hj hk => by
      apply huniq j hj
      rwa [Nat.add_comm 1 j, Nat.add_comm 1 i] at hk)
    rw [Nat.add_comm 1 i] at h2
    simp only [buildMapping, lookup_append, h1, h2]

/-- The match result of the C1 witness: one named group name capturing
t (from a pattern such as (?P<name>t).* under the watch root), which is
also positional group 1. -/
def c1M : MatchResult := { named := [("name", "t")], groups := ["t"] }

/-- The witness trigger: its pattern matches exactly the path /w/tX,
producing `c1M`. -/
def c1wT : TriggerItem :=
  { event := "A",
    matchPat := fun p => if p = "/w/tX" then some c1M else none,
    backup := none }

/-- Events dict of the C1 scenarios. -/
def c1Events : String → EventItem := fun _ =>
  mkEventItem "cp $file /dst/$name" none none none

theorem c1_dispatch_and_mapping_witness :
    c1wT ∈ [c1wT] ∧
    c1wT.matchPat "/w/tX" = some c1M ∧
    (c1M.named.map Prod.fst).Nodup ∧
    (fileEventInstances [c1wT] c1Events "/w/tX").length = 1 ∧
    replaceMappingOpt (c1Events "A") (some (buildMapping c1M "/w/tX")) ∈
      fileEventInstances [c1wT] c1Events "/w/tX" ∧
    lookup (buildMapping c1M "/w/tX") "file" = some "/w/tX" ∧
    lookup (buildMapping c1M "/w/tX") "name" = some "t" ∧
    lookup (buildMapping c1M "/w/tX") (toString 1) = some "t" := by
  have h := c1_dispatch_and_mapping [c1wT] c1Events "/w/tX" c1wT c1M
    (by simp) rfl (by decide)
  refine ⟨by simp, rfl, by decide, ?_, h.2.1, h.2.2.1, ?_, ?_⟩
  · rw [h.1]
    rfl
  · exact h.2.2.2.1 "name" "t" (by decide) (by decide) (by decide)
  · exact h.2.2.2.2 0 (by decide) (by decide) (by decide)

/-- The match result of the C1 counterexample: the pattern declares a
named group called file — e.g. the trigger file template
(?P<file>t).* under watch root /w, matched against the path /w/tX — so
`groupdict()` maps file to t while the dispatch code stores the matched
path under the same key. -/
def c1cM : MatchResult := { named := [("file", "t")], groups := ["t"] }

/-- Trigger of the C1 counterexample. -/
def c1cT : TriggerItem :=
  { event := "A",
    matchPat := fun p => if p = "/w/tX" then some c1cM else none,
    backup := none }

/-- Claim C1 counterexample: the enqueued instance's mapping does NOT
contain the named capture group (file, t): the path insertion
overwrites it, so the mapping holds /w/tX — not the captured t — under
file, refuting the claim that the mapping contains every named capture
group of the match. -/
theorem c1_counterexample :
    (fileEventInstances [c1cT] c1Events "/w/tX").length = 1 ∧
    lookup (buildMapping c1cM "/w/tX") "file" = some "/w/tX" ∧
    ¬ lookup (buildMapping c1cM "/w/tX") "file" = some "t" :=
  ⟨rfl, rfl, by decide⟩

end EventManager
